import Mathlib

/-!
Verification development for the Reya ccxt adapter
(`ccxt_wrapper/Reya.py`, `ccxt_wrapper/const.py`).

The adapter's payload-shaping functions are shallowly embedded: vendor JSON
payloads become association lists of scalar values, Python floats become exact
rationals, raising code paths become `Except`, and the network-facing facade
operations become functions of the data they would have fetched, with an
explicit trace of the network calls they issue.
-/

namespace ReyaCcxt

/-- Exact rational numbers as numerator/denominator pairs (denominator a
natural number, positive for every value the embedding constructs), kept
unnormalized so that all arithmetic reduces in the kernel. These model Python
floats idealized as exact rationals; value equality is cross multiplication
(`qEq`). -/
abbrev QR : Type := ℤ × ℕ

def qOfInt (n : ℤ) : QR := (n, 1)

def qAdd (x y : QR) : QR := (x.1 * (y.2 : ℤ) + y.1 * (x.2 : ℤ), x.2 * y.2)

def qSub (x y : QR) : QR := (x.1 * (y.2 : ℤ) - y.1 * (x.2 : ℤ), x.2 * y.2)

def qMul (x y : QR) : QR := (x.1 * y.1, x.2 * y.2)

/-- Division; the zero-divisor case yields a denominator of 0 and is guarded at
every call site that Python would abort with ZeroDivisionError. -/
def qDiv (x y : QR) : QR :=
  if y.1 < 0 then (-(x.1 * (y.2 : ℤ)), x.2 * y.1.natAbs)
  else (x.1 * (y.2 : ℤ), x.2 * y.1.natAbs)

/-- Value equality of two fractions. -/
def qEq (x y : QR) : Bool := x.1 * (y.2 : ℤ) == y.1 * (x.2 : ℤ)

/-- Value order (correct whenever both denominators are positive, which the
embedding maintains). -/
def qLtB (x y : QR) : Bool := x.1 * (y.2 : ℤ) < y.1 * (x.2 : ℤ)

/-- Python `int(float)`: truncation toward zero. -/
def qTrunc (x : QR) : ℤ := Int.tdiv x.1 (x.2 : ℤ)

/-- 10^n as an exact fraction, for integer n. -/
def qPowTen (n : ℤ) : QR :=
  if n < 0 then (1, 10 ^ n.natAbs) else ((10 : ℤ) ^ n.toNat, 1)

/-- Scalar JSON values appearing in vendor payloads and option maps; `null`
models Python None / JSON null. -/
inductive JVal where
  | str (s : String)
  | num (q : QR)
  | null
deriving DecidableEq, Repr

/-- A Python dict with string keys, as an association list in insertion
order (source payloads have distinct keys). -/
abbrev Payload := List (String × JVal)

/-- Association-list lookup, Python `d.get(k)`. -/
def lookupAssoc {α : Type} : List (String × α) → String → Option α
  | [], _ => none
  | (k0, v) :: t, k => if k0 == k then some v else lookupAssoc t k

/-- Python `d.get(k)` on a payload. -/
def lookupV (raw : Payload) (k : String) : Option JVal :=
  lookupAssoc raw k

/-- Python `k in d`. -/
def containsKey (raw : Payload) (k : String) : Bool :=
  raw.any (fun p => p.1 == k)

/-- Python `d[k] = v`: overwrite in place when present, append otherwise. -/
def setAssoc {α : Type} : List (String × α) → String → α → List (String × α)
  | [], k, v => [(k, v)]
  | (k0, v0) :: t, k, v =>
    if k0 == k then (k0, v) :: t else (k0, v0) :: setAssoc t k v

/-- Python `a.update(b)` on dicts. -/
def dictUpdate (a b : Payload) : Payload :=
  b.foldl (fun acc p => setAssoc acc p.1 p.2) a

/-- Boolean prefix test on character lists (structural, kernel-reducible). -/
def isPrefL : List Char → List Char → Bool
  | [], _ => true
  | _ :: _, [] => false
  | a :: as, b :: bs => a == b && isPrefL as bs

/-- Python `needle in hay` on character lists: contiguous-substring test. -/
def pyContains : List Char → List Char → Bool
  | [], needle => needle.isEmpty
  | h :: t, needle => isPrefL needle (h :: t) || pyContains t needle

/-- Python `str.replace`: one left-to-right, non-overlapping replacement pass,
with explicit fuel; any fuel at least `hay.length` computes the full pass,
since every step consumes at least one character of the haystack. -/
def pyReplaceFuel : ℕ → List Char → List Char → List Char → List Char
  | 0, hay, _, _ => hay
  | _ + 1, [], _, _ => []
  | fuel + 1, h :: t, needle, repl =>
    if !needle.isEmpty && isPrefL needle (h :: t) then
      repl ++ pyReplaceFuel fuel ((h :: t).drop needle.length) needle repl
    else
      h :: pyReplaceFuel fuel t needle repl

def pyReplace (hay needle repl : List Char) : List Char :=
  pyReplaceFuel hay.length hay needle repl

/-- Python `sub in s` on strings. -/
def containsSub (hay sub : String) : Bool := pyContains hay.data sub.data

/-- Python `s.replace(old, new)`: all non-overlapping occurrences, left to
right. -/
def replaceAllS (hay old new : String) : String :=
  String.mk (pyReplace hay.data old.data new.data)

def charUpper (c : Char) : Char :=
  if 'a' ≤ c ∧ c ≤ 'z' then Char.ofNat (c.toNat - 32) else c

/-- Python `s.upper()` (ASCII letters, which is all the adapter feeds it). -/
def strUpper (s : String) : String := String.mk (s.data.map charUpper)

def charLower (c : Char) : Char :=
  if 'A' ≤ c ∧ c ≤ 'Z' then Char.ofNat (c.toNat + 32) else c

/-- Python `s.lower()` (ASCII letters, which is all the adapter feeds it). -/
def strLower (s : String) : String := String.mk (s.data.map charLower)

/-- Python `s.lstrip("/")`. -/
def lstripSlash (p : String) : String :=
  String.mk (p.data.dropWhile (fun c => c == '/'))

def digitVal (c : Char) : Option ℕ :=
  if c.isDigit then some (c.toNat - 48) else none

def digitsVal (l : List Char) : Option ℕ :=
  l.foldl (fun acc c => acc.bind (fun n => (digitVal c).map (fun d => n * 10 + d))) (some 0)

/-- Python `float(s)` for plain decimal literals: optional sign, integer part,
optional fractional part, exact value. Exponent notation, inf/nan and
surrounding whitespace are not modelled (no adapter payload uses them);
`none` models the ValueError Python raises on a non-numeric string. -/
def parseDecimal (s : String) : Option QR :=
  let signAndDigits : Bool × List Char :=
    match s.data with
    | '-' :: t => (true, t)
    | '+' :: t => (false, t)
    | l => (false, l)
  let l := signAndDigits.2
  let intPart := l.takeWhile Char.isDigit
  let rest := l.dropWhile Char.isDigit
  let mag : Option QR :=
    match rest with
    | [] =>
      if intPart.isEmpty then none
      else (digitsVal intPart).map (fun n => ((n : ℤ), 1))
    | '.' :: frac =>
      if frac.all Char.isDigit && !(intPart.isEmpty && frac.isEmpty) then
        (digitsVal intPart).bind (fun n =>
          (digitsVal frac).map (fun f =>
            (((n * 10 ^ frac.length + f : ℕ) : ℤ), 10 ^ frac.length)))
      else none
    | _ => none
  mag.map (fun q => if signAndDigits.1 then (-q.1, q.2) else q)

/-- Python `int(s)` for plain integer literals. -/
def parseIntString (s : String) : Option ℤ :=
  match s.data with
  | '-' :: t =>
    if !t.isEmpty && t.all Char.isDigit then (digitsVal t).map (fun n => -(n : ℤ)) else none
  | l =>
    if !l.isEmpty && l.all Char.isDigit then (digitsVal l).map (fun n => (n : ℤ)) else none

/-- Python `float(x)` on a payload value; `none` models the TypeError or
ValueError it raises (on None or a non-numeric string). -/
def pyFloat : JVal → Option QR
  | .num q => some q
  | .str s => parseDecimal s
  | .null => none

def pyFloatOpt (v : Option JVal) : Option QR := v.bind pyFloat

/-- Python `int(x)` on a payload value; `none` models TypeError/ValueError. -/
def pyIntOfVal : JVal → Option ℤ
  | .num q => some (qTrunc q)
  | .str s => parseIntString s
  | .null => none

/-- Python `str(x)` for payload values (non-integral fraction rendering is
simplified; no claim depends on it). -/
def pyStrOfVal : JVal → String
  | .str s => s
  | .num q => if q.2 = 1 then toString q.1 else toString q.1 ++ "/" ++ toString q.2
  | .null => "None"

def pyStrOfOpt : Option JVal → String
  | some v => pyStrOfVal v
  | none => "None"

/-- Python truthiness of a payload value. -/
def jvTruthy : JVal → Bool
  | .null => false
  | .num q => !qEq q (qOfInt 0)
  | .str s => !s.isEmpty

/-- Python `a or b` for optional payload values (absent and None are falsy). -/
def pyOr (a b : Option JVal) : Option JVal :=
  match a with
  | some v => if jvTruthy v then some v else b
  | none => b

/-- Exact base-10 logarithm of a positive rational that is a power of ten. -/
def log10Exact (q : QR) : Option ℤ :=
  if qLtB (qOfInt 0) q then
    (List.range 79).findSome? (fun i =>
      let n : ℤ := (i : ℤ) - 39
      if qEq q (qPowTen n) then some n else none)
  else none

/-- ccxt `safe_value`: the value when present and non-null, else none. -/
def safe_value (raw : Payload) (k : String) : Option JVal :=
  match lookupV raw k with
  | some .null => none
  | v => v

def safe_value_d (raw : Payload) (k : String) (d : JVal) : JVal :=
  (safe_value raw k).getD d

def safe_value_2 (raw : Payload) (k1 k2 : String) : Option JVal :=
  match safe_value raw k1 with
  | some v => some v
  | none => safe_value raw k2

/-- ccxt `safe_string`: stringify the value when present and non-null. -/
def safe_string (raw : Payload) (k : String) : Option String :=
  (safe_value raw k).map pyStrOfVal

def safe_string_2 (raw : Payload) (k1 k2 : String) : Option String :=
  match safe_string raw k1 with
  | some s => some s
  | none => safe_string raw k2

/-- ccxt `safe_number` / `safe_float`: numeric value when parseable. -/
def safe_number (raw : Payload) (k : String) : Option QR :=
  (safe_value raw k).bind pyFloat

def safe_number_2 (raw : Payload) (k1 k2 : String) : Option QR :=
  match safe_number raw k1 with
  | some q => some q
  | none => safe_number raw k2

/-- ccxt `safe_integer`: numeric value truncated to int when parseable. -/
def safe_integer (raw : Payload) (k : String) : Option ℤ :=
  ((safe_value raw k).bind pyFloat).map qTrunc

def safe_integer_2 (raw : Payload) (k1 k2 : String) : Option ℤ :=
  match safe_integer raw k1 with
  | some n => some n
  | none => safe_integer raw k2

/-- ccxt `safe_float` with an arbitrary default VALUE; parse_ticker in the
source passes the literal strings 'price' and 'last24hVolume' as defaults. -/
def safe_float_d (raw : Payload) (k : String) (d : JVal) : JVal :=
  match safe_number raw k with
  | some q => .num q
  | none => d

/-- Source `_getSymbol` (Reya.py 362-363): strip every RUSDPERP occurrence. -/
def getSymbol (perpName : String) : String := replaceAllS perpName "RUSDPERP" ""

/-- Reya.py 365-369. -/
def convertSymbolToCcxtNotation (symbol : String) : String :=
  if containsSub symbol "/RUSD:RUSD" then symbol
  else getSymbol symbol ++ "/RUSD:RUSD"

/-- Reya.py 371-374. -/
def convertSymbolToReyaNotation (symbol : String) : String :=
  if containsSub symbol "RUSDPERP" then symbol
  else replaceAllS symbol "/RUSD:RUSD" "RUSDPERP"

structure CTicker where
  timestamp : ℤ
  high : Option QR
  low : Option QR
  bid : Option QR
  ask : Option QR
  last : JVal
  baseVolume : JVal
deriving DecidableEq, Repr

/-- parse_ticker (Reya.py 260-273). `now` stands for self.milliseconds(); the
iso8601 rendering and the `info` passthrough are omitted. The third arguments
of safe_float in the source are default VALUES (literal strings), kept as
such. The Except result records that no code path of this function raises. -/
def parse_ticker (now : ℤ) (raw : Payload) : Except String CTicker :=
  .ok {
    timestamp := (safe_integer raw "timestamp").getD now,
    high := safe_number raw "high",
    low := safe_number raw "low",
    bid := safe_number raw "best_bid",
    ask := safe_number raw "best_ask",
    last := safe_float_d raw "poolPrice" (.str "price"),
    baseVolume := safe_float_d raw "volume" (.str "last24hVolume") }

structure CTrade where
  id : Option String
  timestamp : ℤ
  symbol : Option String
  price : Option QR
  amount : Option QR
  side : String
  status : String
deriving DecidableEq, Repr

/-- parse_trade (Reya.py 286-316). `isoMs` models the Python standard library
call int(datetime.fromisoformat(ts.replace("Z", "+00:00")).timestamp() * 1000);
its `none` models the ValueError raised on a malformed timestamp string.
`now` stands for _now_ms(). The side values come from EOrderSide of const.py
("buy"/"sell") and the status from EOrderStatus.CLOSED ("closed"). -/
def parse_trade (isoMs : String → Option ℤ) (now : ℤ) (raw : Payload) :
    Except String CTrade :=
  let tsE : Except String ℤ :=
    match safe_string raw "timestamp" with
    | none => .ok now
    | some s =>
      match isoMs s with
      | some t => .ok t
      | none => .error "fromisoformat"
  match tsE with
  | .error e => .error e
  | .ok ts =>
    .ok {
      id := safe_string_2 raw "trade_id" "id",
      timestamp := ts,
      symbol := safe_string_2 raw "symbol" "ticker",
      price := safe_number raw "price",
      amount := safe_number_2 raw "qty" "amount",
      side := if containsKey raw "side" && (lookupV raw "side" == some (.str "B"))
              then "buy" else "sell",
      status := "closed" }

structure COrder where
  id : Option String
  timestamp : ℤ
  status : String
  symbol : String
  otype : String
  side : String
  price : Option JVal
  amount : JVal
  filled : JVal
  remaining : QR
deriving DecidableEq, Repr

/-- parse_order (Reya.py 318-347); the field named `type` in the source is
`otype` here. Error values name the Python exception site: "status" for
raw.get('status').lower() on a missing or non-string status, "symbol" for
convertSymbolToCcxtNotation(None), and "remaining" for float(None) or a
non-numeric qty/execQty in the remaining computation (line 345). `remaining`
is the float subtraction, modelled exactly. -/
def parse_order (now : ℤ) (raw : Payload) : Except String COrder :=
  let ts := (safe_integer_2 raw "creation_timestamp_ms" "created_at").getD now
  let side := if containsKey raw "side" && (lookupV raw "side" == some (.str "B"))
              then "buy" else "sell"
  let otype := if containsKey raw "orderType" && (lookupV raw "orderType" == some (.str "LIMIT"))
               then "limit" else "market"
  match safe_string_2 raw "symbol" "ticker" with
  | none => .error "symbol"
  | some sym0 =>
    let symbol := convertSymbolToCcxtNotation sym0
    match lookupV raw "status" with
    | some (.str st) =>
      match pyFloatOpt (safe_value raw "qty"), pyFloatOpt (safe_value raw "execQty") with
      | some q, some e =>
        .ok {
          id := safe_string_2 raw "order_id" "orderId",
          timestamp := ts,
          status := strLower st,
          symbol := symbol,
          otype := otype,
          side := side,
          price := safe_value_2 raw "limitPx" "triggerPx",
          amount := safe_value_d raw "qty" (.num (qOfInt 0)),
          filled := safe_value_d raw "execQty" (.num (qOfInt 0)),
          remaining := qSub q e }
      | _, _ => .error "remaining"
    | _ => .error "status"

/-- Index key of one vendor market entry (Reya.py 396):
safe_string(m, 'id', str(safe_integer(m, 'marketId'))); the default argument
is evaluated eagerly in Python, and str(None) is "None". -/
def marketKey (m : Payload) : String :=
  match safe_string m "id" with
  | some s => s
  | none =>
    match safe_integer m "marketId" with
    | some n => toString n
    | none => "None"

/-- The dict comprehension of Reya.py 396: later duplicate keys win in place,
first-insertion order is kept (Python dict semantics, via setAssoc). -/
def buildMarketsIndex (result : List Payload) : List (String × Payload) :=
  result.foldl (fun acc m => setAssoc acc (marketKey m) m) []

/-- Effect of fetch_markets (Reya.py 393-397) on self.markets: the old index
is discarded and the new one is built from the response alone (line 396 binds
self.markets to a fresh dict that never reads the previous one). -/
def fetch_markets_index (_old : List (String × Payload)) (result : List Payload) :
    List (String × Payload) :=
  buildMarketsIndex result

/-- _decimal_places (Reya.py 376-377): int(-math.log10(float(x))), modelled
exactly on the powers of ten the adapter's tick sizes are; `none` models both
the TypeError/ValueError float() raises and an argument outside the modelled
domain (a non-power-of-ten never reaches the proved claims). -/
def decimal_places (v : Option JVal) : Option ℤ :=
  (pyFloatOpt v).bind (fun q => (log10Exact q).map (fun n => -n))

structure CMarket where
  id : Option String
  symbol : String
  base : String
  quote : String
  assetPairId : Option String
  precisionAmount : ℤ
deriving DecidableEq, Repr

/-- One output entry of fetch_markets (Reya.py 399-418). The constant literal
fields of the source dict (type/spot/swap/future/option flags, active, limits,
info) are omitted; underlyingAsset is the literal "RUSD". Errors model the
TypeError raised when `symbol` is absent or non-string (None.replace) and a
failing _decimal_places call. -/
def marketEntry (m : Payload) : Except String CMarket :=
  match lookupV m "symbol" with
  | some (.str sym) =>
    let quoteToken := getSymbol sym
    match decimal_places (lookupV m "tickSize") with
    | some d =>
      .ok {
        id := safe_string m "marketId",
        symbol := strUpper (quoteToken ++ "/" ++ "RUSD" ++ ":" ++ "RUSD"),
        base := strUpper quoteToken,
        quote := strUpper "RUSD",
        assetPairId := safe_string_2 m "marketId" "marketId",
        precisionAmount := d }
    | none => .error "decimal_places"
  | _ => .error "symbol"

/-- fetch_markets output list (Reya.py 398-419): the loop runs over the values
of the freshly built index. -/
def fetch_markets_out (result : List Payload) : Except String (List CMarket) :=
  (buildMarketsIndex result).mapM (fun p => marketEntry p.2)

structure CBalance where
  free : QR
  total : QR
  used : QR
deriving DecidableEq, Repr

/-- One balance loop of fetch_balance (Reya.py 634-639): sum realBalance over
the entries of the given asset, each scaled by `factor` ((9, 10) models the
0.9 staked haircut exactly). Errors model KeyError on the direct entry["..."]
subscripts and ValueError from float(). -/
def sumAsset (asset : String) (factor : QR) (balances : List Payload) :
    Except String QR :=
  balances.foldlM (fun acc entry =>
    match lookupV entry "asset" with
    | none => .error "KeyError asset"
    | some a =>
      if a == JVal.str asset then
        match lookupV entry "realBalance" with
        | none => .error "KeyError realBalance"
        | some rb =>
          match pyFloat rb with
          | some q => .ok (qAdd acc (qMul q factor))
          | none => .error "float realBalance"
      else .ok acc) (qOfInt 0)

/-- Margin used by one open order (Reya.py 646-650):
(amount * price) / leverage, with the leverage looked up by the order's symbol
and defaulting to 3; errors model float(None) on a missing price and the
ZeroDivisionError a zero leverage would raise. -/
def orderUsed (levs : List (String × ℤ)) (o : COrder) : Except String QR :=
  match pyFloat o.amount, pyFloatOpt o.price with
  | some a, some p =>
    let lev : ℤ := (lookupAssoc levs o.symbol).getD 3
    if lev = 0 then .error "ZeroDivisionError"
    else .ok (qDiv (qMul a p) (qOfInt lev))
  | _, _ => .error "float order field"

/-- fetch_balance (Reya.py 629-657) as a function of the three resources the
source fetches over the network before computing: the wallet balance payload,
the parsed open orders (fetch_open_orders output) and the symbol-to-leverage
map (fetch_leverages output). Loop order follows the source: SRUSD entries at
90 percent, then RUSD entries, then the used-margin sum. -/
def fetch_balance (balances : List Payload) (openOrders : List COrder)
    (levs : List (String × ℤ)) : Except String CBalance := do
  let b1 ← sumAsset "SRUSD" (9, 10) balances
  let b2 ← sumAsset "RUSD" (qOfInt 1) balances
  let balance := qAdd b1 b2
  let used ← openOrders.foldlM (fun acc o => do
    let v ← orderUsed levs o
    pure (qAdd acc v)) (qOfInt 0)
  .ok { free := qSub balance used, total := balance, used := used }

abbrev Headers := List (String × String)

structure BuiltRequest where
  url : String
  method : String
  body : Option Payload
  headers : Headers

inductive SignErr where
  | missingSigner
deriving DecidableEq, Repr

/-- The injected signing capability (spec section 4.2/6): payload, path and
method to the extra fields it returns. The source's callable-vs-object
dispatch (callable / .sign_order / .sign) collapses to one function type. -/
def SignerFun : Type := Payload → String → String → Payload

/-- The slice of self.options that sign and create_order read. -/
structure ReyaOptions where
  signer : Option SignerFun
  account_id : Option JVal

def urlBase : String := "https://api.reya.xyz"

/-- Placeholder substitution of the public branch of sign (Reya.py 181-191):
each param whose key occurs as a braced placeholder in the url is substituted
(stringified) and dropped from the remaining params. -/
def substPlaceholders (url : String) (params : Payload) : String × Payload :=
  params.foldl (fun acc kv =>
    let ph := "\x7b" ++ kv.1 ++ "\x7d"
    if containsSub acc.1 ph then (replaceAllS acc.1 ph (pyStrOfVal kv.2), acc.2)
    else (acc.1, acc.2 ++ [kv])) (url, [])

/-- Python urlencode, simplified to k=v pairs joined by ampersands (percent
escaping is not modelled; no claim depends on it). -/
def urlencode (params : Payload) : String :=
  String.intercalate "&" (params.map (fun kv => kv.1 ++ "=" ++ pyStrOfVal kv.2))

/-- sign (Reya.py 171-244). The json.loads/json.dumps round trips are modelled
away (bodies are payload dicts) and make_json_safe is the identity on the
modelled scalar values. The error names the NotImplementedError raised at line
227 when options carry no signer; it is raised before the signer is ever
called and no request structure is returned. sign performs no network call in
the source (request dispatch lives in the ccxt runtime). -/
def sign (opts : ReyaOptions) (path api method : String) (params : Payload)
    (headers : Headers) (body : Option Payload) : Except SignErr BuiltRequest :=
  let url0 := urlBase ++ "/" ++ lstripSlash path
  if api == "public" then
    let sp := substPlaceholders url0 params
    if method == "GET" then
      .ok { url := if sp.2.isEmpty then sp.1 else sp.1 ++ "?" ++ urlencode sp.2,
            method := method, body := none, headers := headers }
    else
      .ok { url := sp.1, method := method,
            body := if sp.2.isEmpty then none else some sp.2,
            headers := setAssoc headers "Content-Type" "application/json" }
  else
    let payload0 := match body with
      | some b => b
      | none => params
    let payload1 :=
      match opts.account_id with
      | some acc =>
        if jvTruthy acc && !containsKey payload0 "accountId"
            && !containsKey payload0 "account_id" then
          payload0 ++ [("accountId", acc)]
        else payload0
      | none => payload0
    let headers1 := setAssoc headers "Content-Type" "application/json"
    match opts.signer with
    | none => .error .missingSigner
    | some f =>
      let payload2 := dictUpdate payload1 (f payload1 path method)
      .ok { url := urlBase ++ "/" ++ lstripSlash path, method := method,
            body := some payload2, headers := headers1 }

inductive OrderErr where
  | missingAccountId
  | typeError
deriving DecidableEq, Repr

/-- SDK LimitOrderParameters as built by create_order (Reya.py 910-929);
str() wrappers on price and qty are kept numeric. -/
structure LimitOrderParameters where
  market_id : Option ℤ
  symbol : String
  is_buy : Bool
  limit_px : Option QR
  qty : QR
  time_in_force : String
  reduce_only : Option Bool
  expires_after : Option JVal
deriving DecidableEq, Repr

/-- SDK TriggerOrderParameters as built by create_order (Reya.py 936-953);
trigger_px keeps the raw param value. -/
structure TriggerOrderParameters where
  market_id : ℤ
  symbol : String
  is_buy : Bool
  trigger_px : JVal
  trigger_type : String
deriving DecidableEq, Repr

/-- One network call issued by the modelled facade operations. -/
inductive NetEffect where
  | fetchMarketsNet
  | createLimitOrderNet (p : LimitOrderParameters)
  | createTriggerOrderNet (p : TriggerOrderParameters)
deriving DecidableEq, Repr

/-- What create_order handed to the trading client, if anything (the branch at
Reya.py 932-956 submits nothing when params is nonempty without a trigger
price). -/
inductive Submitted where
  | limitSub (p : LimitOrderParameters)
  | triggerSub (p : TriggerOrderParameters)
deriving DecidableEq, Repr

/-- The exchange-side state create_order consults: the ccxt market cache and
the market list the vendor would return if fetched. -/
structure ExchState where
  loaded : Option (List Payload)
  server : List Payload

/-- ccxt Exchange.load_markets, modelled from its documented contract: return
the cached unified market dicts when markets are already loaded, otherwise
fetch the market list once over the network (the one NetEffect emitted). -/
def load_markets (s : ExchState) : List NetEffect × List Payload :=
  match s.loaded with
  | some ms => ([], ms)
  | none => ([NetEffect.fetchMarketsNet], s.server)

/-- The market-resolution loop of create_order (Reya.py 895-901): first market
whose unified symbol equals the argument or whose stringified id equals it. -/
def findMarket (markets : List Payload) (symbol : String) : Option Payload :=
  markets.find? (fun m =>
    (lookupV m "symbol" == some (.str symbol)) || (pyStrOfOpt (lookupV m "id") == symbol))

/-- market_id after the loop: params['marketId'] if truthy, else the matched
market's id (Python `or`). -/
def resolveMarketId (markets : List Payload) (params : Payload) (symbol : String) :
    Option JVal :=
  match findMarket markets symbol with
  | some m => pyOr (lookupV params "marketId") (lookupV m "id")
  | none => lookupV params "marketId"

/-- Order construction and submission of create_order (Reya.py 905-956), after
market loading, the account check, and the int(market_id) conversion the
limit-parameter construction performs (`mi`). `tr` is the network trace so
far. is_buy of the limit parameters follows side.lower() == 'buy'; both
trigger branches hard-code is_buy=False (lines 939 and 950). The typeError in
the trigger branches is int(None) when no market id resolved. -/
def createOrderSubmit (tr : List NetEffect) (rsymbol otype side : String) (amount : QR)
    (price : Option QR) (params : Payload) (mi : Option ℤ) :
    List NetEffect × Except OrderErr (Option Submitted) :=
  let tif := if otype == "limit" then "GTC" else "IOC"
  let ro : Option Bool := if otype == "limit" then none else some false
  let lp : LimitOrderParameters :=
    { market_id := mi, symbol := rsymbol,
      is_buy := strLower side == "buy",
      limit_px := price, qty := amount, time_in_force := tif,
      reduce_only := ro, expires_after := lookupV params "expires_after" }
  if params.isEmpty then
    (tr ++ [NetEffect.createLimitOrderNet lp], .ok (some (.limitSub lp)))
  else if containsKey params "takeProfitPrice" then
    match mi with
    | none => (tr, .error .typeError)
    | some m =>
      let p : TriggerOrderParameters :=
        { market_id := m, symbol := rsymbol, is_buy := false,
          trigger_px := (lookupV params "takeProfitPrice").getD .null,
          trigger_type := "TP" }
      (tr ++ [NetEffect.createTriggerOrderNet p], .ok (some (.triggerSub p)))
  else if containsKey params "stopLossPrice" then
    match mi with
    | none => (tr, .error .typeError)
    | some m =>
      let p : TriggerOrderParameters :=
        { market_id := m, symbol := rsymbol, is_buy := false,
          trigger_px := (lookupV params "stopLossPrice").getD .null,
          trigger_type := "SL" }
      (tr ++ [NetEffect.createTriggerOrderNet p], .ok (some (.triggerSub p)))
  else (tr, .ok none)

/-- create_order (Reya.py 884-994) up to the order submission, with an
explicit trace of network calls. Sequencing follows the source: load_markets
(line 893), the market-resolution loop, the accountId check (902-904, Python
`or` over params and options), symbol conversion, parameter construction with
int(market_id), then the submission branch. The response-derived fields of the
ccxt order dict the source returns afterwards are not modelled (they depend
only on the remote response). -/
def create_order (s : ExchState) (opts : ReyaOptions) (symbol otype side : String)
    (amount : QR) (price : Option QR) (params : Payload) :
    List NetEffect × Except OrderErr (Option Submitted) :=
  let lm := load_markets s
  let marketId := resolveMarketId lm.2 params symbol
  match pyOr (lookupV params "accountId") opts.account_id with
  | none => (lm.1, .error .missingAccountId)
  | some _ =>
    let rsymbol := convertSymbolToReyaNotation symbol
    match marketId with
    | some v =>
      match pyIntOfVal v with
      | none => (lm.1, .error .typeError)
      | some mi => createOrderSubmit lm.1 rsymbol otype side amount price params (some mi)
    | none => createOrderSubmit lm.1 rsymbol otype side amount price params none

instance {ε α : Type} [DecidableEq ε] [DecidableEq α] : DecidableEq (Except ε α) := fun a b =>
  match a, b with
  | .ok x, .ok y =>
    if h : x = y then .isTrue (by rw [h]) else .isFalse (by intro hc; cases hc; exact h rfl)
  | .error x, .error y =>
    if h : x = y then .isTrue (by rw [h]) else .isFalse (by intro hc; cases hc; exact h rfl)
  | .ok _, .error _ => .isFalse (by intro hc; cases hc)
  | .error _, .ok _ => .isFalse (by intro hc; cases hc)

/-! Combinatorial facts about the Python string model, used to settle the
symbol-notation claims. -/

theorem isPrefL_iff (a b : List Char) : isPrefL a b = true ↔ ∃ t, b = a ++ t := by
  induction a generalizing b with
  | nil =>
    simp [isPrefL]
  | cons x xs ih =>
    cases b with
    | nil => simp [isPrefL]
    | cons y ys =>
      simp only [isPrefL, Bool.and_eq_true, beq_iff_eq, List.cons_append, List.cons.injEq]
      constructor
      · rintro ⟨rfl, h⟩
        obtain ⟨t, rfl⟩ := (ih ys).mp h
        exact ⟨t, rfl, rfl⟩
      · rintro ⟨t, hy, hys⟩
        exact ⟨hy.symm, (ih ys).mpr ⟨t, hys⟩⟩

theorem isPrefL_self (a : List Char) : isPrefL a a = true :=
  (isPrefL_iff a a).mpr ⟨[], by simp⟩

theorem isPrefL_take (k : ℕ) (l : List Char) : isPrefL (l.take k) l = true :=
  (isPrefL_iff _ _).mpr ⟨l.drop k, (List.take_append_drop k l).symm⟩

theorem isPrefL_of_append_le (n x y : List Char) (h : isPrefL n (x ++ y) = true)
    (hl : n.length ≤ x.length) : isPrefL n x = true := by
  obtain ⟨t, ht⟩ := (isPrefL_iff _ _).mp h
  have h2 : n = x.take n.length := by
    calc n = ((x ++ y).take n.length) := by rw [ht]; exact (List.take_left n t).symm
    _ = x.take n.length ++ y.take (n.length - x.length) := List.take_append_eq_append_take
    _ = x.take n.length ++ y.take 0 := by rw [Nat.sub_eq_zero_of_le hl]
    _ = x.take n.length := by simp
  rw [h2]
  exact isPrefL_take _ _

theorem isPrefL_drop_of_append (n x y : List Char) (h : isPrefL n (x ++ y) = true)
    (hl : x.length < n.length) : n.drop x.length = y.take (n.length - x.length) := by
  obtain ⟨t, ht⟩ := (isPrefL_iff _ _).mp h
  have hn : n = x ++ y.take (n.length - x.length) := by
    calc n = ((x ++ y).take n.length) := by rw [ht]; exact (List.take_left n t).symm
    _ = x.take n.length ++ y.take (n.length - x.length) := List.take_append_eq_append_take
    _ = x ++ y.take (n.length - x.length) := by rw [List.take_of_length_le (Nat.le_of_lt hl)]
  calc n.drop x.length = (x ++ y.take (n.length - x.length)).drop x.length := by rw [← hn]
  _ = y.take (n.length - x.length) := List.drop_left x _

theorem pyContains_of_isPrefL (l n : List Char) (h : isPrefL n l = true) :
    pyContains l n = true := by
  cases l with
  | nil =>
    cases n with
    | nil => rfl
    | cons c cs => simp [isPrefL] at h
  | cons x t => simp [pyContains, h]

theorem pyContains_append_right (a b n : List Char) (h : pyContains b n = true) :
    pyContains (a ++ b) n = true := by
  induction a with
  | nil => simpa using h
  | cons x t ih =>
    show pyContains (x :: (t ++ b)) n = true
    simp [pyContains, ih]

theorem pyContains_cons_parts {x : Char} {t n : List Char}
    (h : pyContains (x :: t) n = false) :
    isPrefL n (x :: t) = false ∧ pyContains t n = false := by
  simpa [pyContains, Bool.or_eq_false_iff] using h

theorem pyContains_append_false (a b n : List Char)
    (ha : pyContains a n = false) (hb : pyContains b n = false)
    (hc : ∀ k, k < n.length → 0 < k → isPrefL (n.drop k) b = false) :
    pyContains (a ++ b) n = false := by
  induction a with
  | nil => simpa using hb
  | cons x t ih =>
    obtain ⟨h1, h2⟩ := pyContains_cons_parts ha
    have ih2 := ih h2
    have hp : isPrefL n ((x :: t) ++ b) = false := by
      cases hp0 : isPrefL n ((x :: t) ++ b) with
      | false => rfl
      | true =>
        exfalso
        rcases Nat.lt_or_ge (x :: t).length n.length with hlt | hge
        · have hd := isPrefL_drop_of_append n (x :: t) b hp0 hlt
          have hT : isPrefL (n.drop (x :: t).length) b = true := by
            rw [hd]; exact isPrefL_take _ _
          rw [hc (x :: t).length hlt (by simp)] at hT
          exact Bool.false_ne_true hT
        · have hX := isPrefL_of_append_le n (x :: t) b hp0 hge
          rw [h1] at hX
          exact Bool.false_ne_true hX
    show pyContains (x :: (t ++ b)) n = false
    have hsplit : pyContains (x :: (t ++ b)) n
        = (isPrefL n (x :: (t ++ b)) || pyContains (t ++ b) n) := rfl
    rw [hsplit]
    have hp' : isPrefL n (x :: (t ++ b)) = false := hp
    rw [hp', ih2]
    rfl

theorem pyReplaceFuel_nil_hay (f : ℕ) (n r : List Char) : pyReplaceFuel f [] n r = [] := by
  cases f <;> rfl

theorem pyReplaceFuel_append_eq (n : List Char) (hn : n.isEmpty = false)
    (hov : ∀ k, k < n.length → 0 < k → n.drop k ≠ n.take (n.length - k)) :
    ∀ (base : List Char) (fuel : ℕ), (base ++ n).length ≤ fuel →
      pyContains base n = false → ∀ repl,
      pyReplaceFuel fuel (base ++ n) n repl = base ++ repl := by
  intro base
  induction base with
  | nil =>
    intro fuel hf _ repl
    cases n with
    | nil => simp [List.isEmpty] at hn
    | cons c cs =>
      cases fuel with
      | zero => simp at hf
      | succ f =>
        show pyReplaceFuel (f + 1) ([] ++ (c :: cs)) (c :: cs) repl = [] ++ repl
        simp only [List.nil_append]
        show (if !(c :: cs).isEmpty && isPrefL (c :: cs) (c :: cs) then
            repl ++ pyReplaceFuel f ((c :: cs).drop (c :: cs).length) (c :: cs) repl
          else c :: pyReplaceFuel f cs (c :: cs) repl) = repl
        rw [isPrefL_self]
        simp [List.drop_length, pyReplaceFuel_nil_hay]
  | cons x t ih =>
    intro fuel hf hbase repl
    obtain ⟨h1, h2⟩ := pyContains_cons_parts hbase
    cases fuel with
    | zero => simp at hf
    | succ f =>
      have hp : isPrefL n ((x :: t) ++ n) = false := by
        cases hp0 : isPrefL n ((x :: t) ++ n) with
        | false => rfl
        | true =>
          exfalso
          rcases Nat.lt_or_ge (x :: t).length n.length with hlt | hge
          · have hd := isPrefL_drop_of_append n (x :: t) n hp0 hlt
            exact hov (x :: t).length hlt (by simp) hd
          · have hX := isPrefL_of_append_le n (x :: t) n hp0 hge
            rw [h1] at hX
            exact Bool.false_ne_true hX
      show pyReplaceFuel (f + 1) (x :: (t ++ n)) n repl = (x :: t) ++ repl
      have hp' : isPrefL n (x :: (t ++ n)) = false := hp
      show (if !n.isEmpty && isPrefL n (x :: (t ++ n)) then
          repl ++ pyReplaceFuel f ((x :: (t ++ n)).drop n.length) n repl
        else x :: pyReplaceFuel f (t ++ n) n repl) = (x :: t) ++ repl
      rw [hp']
      simp only [Bool.and_false, if_neg Bool.false_ne_true]
      rw [ih f (by simpa using Nat.le_of_succ_le_succ hf) h2 repl]
      rfl

theorem pyReplace_append_eq (n : List Char) (hn : n.isEmpty = false)
    (hov : ∀ k, k < n.length → 0 < k → n.drop k ≠ n.take (n.length - k))
    (base : List Char) (hbase : pyContains base n = false) (repl : List Char) :
    pyReplace (base ++ n) n repl = base ++ repl :=
  pyReplaceFuel_append_eq n hn hov base (base ++ n).length (Nat.le_refl _) hbase repl

theorem strData_append (a b : String) : (a ++ b).data = a.data ++ b.data := by
  cases a; cases b; rfl

theorem strEq_of_data {a b : String} (h : a.data = b.data) : a = b := by
  cases a; cases b; exact congrArg String.mk h

/-- C10: for every string of the form base ++ "RUSDPERP" whose base contains
neither "RUSDPERP" nor "/RUSD:RUSD", converting the vendor perp symbol to ccxt
notation and back with convertSymbolToReyaNotation returns the original
string: the two symbol-notation conversions are mutually inverse on vendor
perp symbols. -/
theorem convert_symbol_roundtrip (base : String)
    (h1 : containsSub base "RUSDPERP" = false)
    (h2 : containsSub base "/RUSD:RUSD" = false) :
    convertSymbolToReyaNotation (convertSymbolToCcxtNotation (base ++ "RUSDPERP"))
      = base ++ "RUSDPERP" := by
  have hdata : (base ++ "RUSDPERP").data = base.data ++ "RUSDPERP".data :=
    strData_append _ _
  have hperp_in : containsSub (base ++ "RUSDPERP") "RUSDPERP" = true := by
    show pyContains (base ++ "RUSDPERP").data "RUSDPERP".data = true
    rw [hdata]
    exact pyContains_append_right _ _ _ (pyContains_of_isPrefL _ _ (isPrefL_self _))
  unfold convertSymbolToCcxtNotation
  cases hc : containsSub (base ++ "RUSDPERP") "/RUSD:RUSD" with
  | true =>
    simp only [hc, if_true]
    unfold convertSymbolToReyaNotation
    simp only [hperp_in, if_true]
  | false =>
    simp only [hc, Bool.false_eq_true, if_false]
    have hg : getSymbol (base ++ "RUSDPERP") = base := by
      apply strEq_of_data
      show pyReplace (base ++ "RUSDPERP").data "RUSDPERP".data ("" : String).data = base.data
      rw [hdata]
      have hr := pyReplace_append_eq "RUSDPERP".data (by decide) (by decide) base.data h1 []
      calc pyReplace (base.data ++ "RUSDPERP".data) "RUSDPERP".data ("" : String).data
          = base.data ++ [] := hr
      _ = base.data := List.append_nil _
    rw [hg]
    unfold convertSymbolToReyaNotation
    have hnotin : containsSub (base ++ "/RUSD:RUSD") "RUSDPERP" = false := by
      show pyContains (base ++ "/RUSD:RUSD").data "RUSDPERP".data = false
      rw [strData_append]
      exact pyContains_append_false base.data ("/RUSD:RUSD".data) ("RUSDPERP".data)
        h1 (by decide) (by decide)
    simp only [hnotin, Bool.false_eq_true, if_false]
    apply strEq_of_data
    show pyReplace (base ++ "/RUSD:RUSD").data "/RUSD:RUSD".data "RUSDPERP".data
        = (base ++ "RUSDPERP").data
    rw [strData_append, strData_append]
    exact pyReplace_append_eq "/RUSD:RUSD".data (by decide) (by decide) base.data h2
      "RUSDPERP".data

/-- Witness for C10 at base = "SOL". -/
theorem convert_symbol_roundtrip_witness :
    convertSymbolToReyaNotation (convertSymbolToCcxtNotation ("SOL" ++ "RUSDPERP"))
      = "SOL" ++ "RUSDPERP" :=
  convert_symbol_roundtrip "SOL" (by decide) (by decide)

theorem pyFloat_getD_of_opt {x : Option JVal} {d : JVal} {q : QR}
    (h : pyFloatOpt x = some q) : pyFloat (x.getD d) = some q := by
  cases x with
  | none => simp [pyFloatOpt] at h
  | some v => simpa [pyFloatOpt] using h

/-- C1: every vendor order payload that parse_order normalizes satisfies
remaining = qty - execQty exactly: the amount field is the raw qty value, the
filled field the raw execQty value, and remaining is their exact rational
difference (the source's float subtraction at Reya.py 345, idealized to exact
arithmetic). -/
theorem parse_order_remaining_inv (now : ℤ) (raw : Payload) (o : COrder)
    (h : parse_order now raw = Except.ok o) :
    ∃ a f, pyFloat o.amount = some a ∧ pyFloat o.filled = some f ∧
      o.remaining = qSub a f := by
  unfold parse_order at h
  cases hsym : safe_string_2 raw "symbol" "ticker" with
  | none => simp [hsym] at h
  | some sym0 =>
    cases hst : lookupV raw "status" with
    | none => simp [hsym, hst] at h
    | some v =>
      cases v with
      | num q0 => simp [hsym, hst] at h
      | null => simp [hsym, hst] at h
      | str st =>
        cases hq : pyFloatOpt (safe_value raw "qty") with
        | none => simp [hsym, hst, hq] at h
        | some q =>
          cases he : pyFloatOpt (safe_value raw "execQty") with
          | none => simp [hsym, hst, hq, he] at h
          | some e =>
            simp only [hsym, hst, hq, he, Except.ok.injEq] at h
            subst h
            exact ⟨q, e, pyFloat_getD_of_opt hq, pyFloat_getD_of_opt he, rfl⟩

/-- Witness for C1 on a payload with qty "1.0" and execQty "0.25". -/
theorem parse_order_remaining_inv_witness :
    ∃ a f, pyFloat (JVal.str "1.0") = some a ∧ pyFloat (JVal.str "0.25") = some f ∧
      (((750 : ℤ), (1000 : ℕ)) : QR) = qSub a f :=
  parse_order_remaining_inv 0
    [("order_id", JVal.str "1"), ("status", JVal.str "OPEN"),
     ("symbol", JVal.str "BTCRUSDPERP"), ("qty", JVal.str "1.0"),
     ("execQty", JVal.str "0.25")]
    ⟨some "1", 0, "open", "BTC/RUSD:RUSD", "market", "sell", none,
      JVal.str "1.0", JVal.str "0.25", (750, 1000)⟩
    (by decide)

/-- Counterexample for C7: a payload whose order id IS present (under both
aliases) but whose optional qty field is missing makes parse_order raise
(float(None) at Reya.py 345) instead of substituting zero — so the
normalizers do not raise only when the identifying field is absent. -/
theorem parse_order_missing_qty_raises :
    parse_order 0
      [("order_id", JVal.str "42"), ("orderId", JVal.str "42"),
       ("status", JVal.str "OPEN"), ("symbol", JVal.str "BTCRUSDPERP"),
       ("execQty", JVal.str "0.5")]
      = Except.error "remaining" := by decide

/-- C7 as amended: parse_ticker never raises; parse_trade never raises when
the optional timestamp field is missing; and parse_order never raises for a
missing order id, but it does require status to be a present string, a
resolvable symbol/ticker, and numeric qty and execQty values — with those
present it succeeds even with the id absent from all aliases. -/
theorem parse_funcs_missing_optional (isoMs : String → Option ℤ) (now : ℤ)
    (raw : Payload) (st sym : String) (q e : QR)
    (h1 : lookupV raw "status" = some (JVal.str st))
    (h2 : safe_string_2 raw "symbol" "ticker" = some sym)
    (h3 : pyFloatOpt (safe_value raw "qty") = some q)
    (h4 : pyFloatOpt (safe_value raw "execQty") = some e) :
    (parse_ticker now raw).isOk = true ∧
    (safe_string raw "timestamp" = none → (parse_trade isoMs now raw).isOk = true) ∧
    (parse_order now raw).isOk = true := by
  refine ⟨rfl, ?_, ?_⟩
  · intro ht
    simp [parse_trade, ht, Except.isOk, Except.toBool]
  · simp [parse_order, h1, h2, h3, h4, Except.isOk, Except.toBool]

/-- Witness for C7 (amended) on a payload with no order id and no timestamp. -/
theorem parse_funcs_missing_optional_witness :
    (parse_ticker 0 [("status", JVal.str "OPEN"), ("symbol", JVal.str "ETHRUSDPERP"),
        ("qty", JVal.num (1, 1)), ("execQty", JVal.num (0, 1))]).isOk = true ∧
    (safe_string [("status", JVal.str "OPEN"), ("symbol", JVal.str "ETHRUSDPERP"),
        ("qty", JVal.num (1, 1)), ("execQty", JVal.num (0, 1))] "timestamp" = none →
      (parse_trade (fun _ => none) 0 [("status", JVal.str "OPEN"),
        ("symbol", JVal.str "ETHRUSDPERP"), ("qty", JVal.num (1, 1)),
        ("execQty", JVal.num (0, 1))]).isOk = true) ∧
    (parse_order 0 [("status", JVal.str "OPEN"), ("symbol", JVal.str "ETHRUSDPERP"),
        ("qty", JVal.num (1, 1)), ("execQty", JVal.num (0, 1))]).isOk = true :=
  parse_funcs_missing_optional (fun _ => none) 0
    [("status", JVal.str "OPEN"), ("symbol", JVal.str "ETHRUSDPERP"),
     ("qty", JVal.num (1, 1)), ("execQty", JVal.num (0, 1))]
    "OPEN" "ETHRUSDPERP" (1, 1) (0, 1)
    (by decide) (by decide) (by decide) (by decide)

/-- Counterexample for C9: a trade payload with no side field and a strictly
positive quantity is normalized with side "sell", not "buy" — there is no
signed-quantity heuristic in parse_trade (Reya.py 296-300). -/
theorem parse_trade_no_side_counterexample :
    (parse_trade (fun _ => none) 0
        [("qty", JVal.num (5, 1)), ("price", JVal.num (2, 1))]).map CTrade.side
      = Except.ok "sell" ∧
    (parse_trade (fun _ => none) 0
        [("qty", JVal.num (5, 1)), ("price", JVal.num (2, 1))]).map CTrade.side
      ≠ Except.ok "buy" := by
  exact ⟨by decide, by decide⟩

/-- C9 as amended: when a vendor trade payload has no explicit side field,
parse_trade assigns side "sell" regardless of the quantity (it is "buy" only
when an explicit side field equals "B"). -/
theorem parse_trade_no_side_sell (isoMs : String → Option ℤ) (now : ℤ)
    (raw : Payload) (o : CTrade)
    (h : parse_trade isoMs now raw = Except.ok o)
    (hs : containsKey raw "side" = false) :
    o.side = "sell" := by
  unfold parse_trade at h
  cases hts : safe_string raw "timestamp" with
  | none =>
    simp only [hts, Except.ok.injEq] at h
    subst h
    simp [hs]
  | some s =>
    cases hi : isoMs s with
    | none => simp [hts, hi] at h
    | some t =>
      simp only [hts, hi, Except.ok.injEq] at h
      subst h
      simp [hs]

/-- Witness for C9 (amended) on a payload with positive quantity and no side. -/
theorem parse_trade_no_side_sell_witness :
    CTrade.side ⟨none, 0, none, none, some (3, 1), "sell", "closed"⟩ = "sell" :=
  parse_trade_no_side_sell (fun _ => none) 0 [("qty", JVal.num (3, 1))]
    ⟨none, 0, none, none, some (3, 1), "sell", "closed"⟩ (by decide) (by decide)

/-- C3: building a private-domain request with no signer registered in options
fails with the configuration error (NotImplementedError, Reya.py 226-227)
before the signer would be consulted, and no request structure is returned;
sign itself performs no network call (dispatch lives in the ccxt runtime). -/
theorem sign_private_no_signer (acc : Option JVal) (path method : String)
    (params : Payload) (headers : Headers) (body : Option Payload) :
    sign ⟨none, acc⟩ path "private" method params headers body
      = Except.error SignErr.missingSigner := rfl

theorem load_markets_trace (s : ExchState) (e : NetEffect)
    (h : e ∈ (load_markets s).1) : e = NetEffect.fetchMarketsNet := by
  unfold load_markets at h
  cases hl : s.loaded with
  | some ms => rw [hl] at h; simp at h
  | none => rw [hl] at h; simpa using h

theorem containsKey_not_nil {l : Payload} {k : String}
    (h : containsKey l k = true) : l.isEmpty = false := by
  cases l with
  | nil => simp [containsKey] at h
  | cons p t => rfl

theorem create_order_resolved (s : ExchState) (opts : ReyaOptions)
    (symbol otype side : String) (amount : QR) (price : Option QR) (params : Payload)
    (av v : JVal) (n : ℤ)
    (ha : pyOr (lookupV params "accountId") opts.account_id = some av)
    (hv : resolveMarketId (load_markets s).2 params symbol = some v)
    (hn : pyIntOfVal v = some n) :
    create_order s opts symbol otype side amount price params
      = createOrderSubmit (load_markets s).1 (convertSymbolToReyaNotation symbol)
          otype side amount price params (some n) := by
  simp [create_order, ha, hv, hn]

theorem createOrderSubmit_tp (tr : List NetEffect) (rsymbol otype side : String)
    (amount : QR) (price : Option QR) (params : Payload) (m : ℤ)
    (hne : params.isEmpty = false)
    (hTP : containsKey params "takeProfitPrice" = true) :
    createOrderSubmit tr rsymbol otype side amount price params (some m)
      = (tr ++ [NetEffect.createTriggerOrderNet
            ⟨m, rsymbol, false, (lookupV params "takeProfitPrice").getD .null, "TP"⟩],
         Except.ok (some (.triggerSub
            ⟨m, rsymbol, false, (lookupV params "takeProfitPrice").getD .null, "TP"⟩))) := by
  simp [createOrderSubmit, hne, hTP]

theorem createOrderSubmit_sl (tr : List NetEffect) (rsymbol otype side : String)
    (amount : QR) (price : Option QR) (params : Payload) (m : ℤ)
    (hne : params.isEmpty = false)
    (hTP : containsKey params "takeProfitPrice" = false)
    (hSL : containsKey params "stopLossPrice" = true) :
    createOrderSubmit tr rsymbol otype side amount price params (some m)
      = (tr ++ [NetEffect.createTriggerOrderNet
            ⟨m, rsymbol, false, (lookupV params "stopLossPrice").getD .null, "SL"⟩],
         Except.ok (some (.triggerSub
            ⟨m, rsymbol, false, (lookupV params "stopLossPrice").getD .null, "SL"⟩))) := by
  simp [createOrderSubmit, hne, hTP, hSL]

/-- C2: whenever create_order is called with params carrying a takeProfitPrice
or a stopLossPrice (and the account and market ids resolve, so that the call
reaches submission), the one trigger order it submits has is_buy = false — the
hard-coded sell side of Reya.py 939/950 — for every value of the caller's side
argument. -/
theorem create_order_trigger_fixed_side (s : ExchState) (opts : ReyaOptions)
    (symbol otype side : String) (amount : QR) (price : Option QR) (params : Payload)
    (hacct : pyOr (lookupV params "accountId") opts.account_id ≠ none)
    (htp : containsKey params "takeProfitPrice" = true ∨
           containsKey params "stopLossPrice" = true)
    (hmi : ∃ v n, resolveMarketId (load_markets s).2 params symbol = some v ∧
           pyIntOfVal v = some n) :
    (∃ p, NetEffect.createTriggerOrderNet p
        ∈ (create_order s opts symbol otype side amount price params).1) ∧
    (∀ p, NetEffect.createTriggerOrderNet p
        ∈ (create_order s opts symbol otype side amount price params).1 →
        p.is_buy = false) := by
  obtain ⟨v, n, hv, hn⟩ := hmi
  cases ha : pyOr (lookupV params "accountId") opts.account_id with
  | none => exact absurd ha hacct
  | some av =>
    rw [create_order_resolved s opts symbol otype side amount price params av v n ha hv hn]
    have hne : params.isEmpty = false := by
      cases htp with
      | inl h => exact containsKey_not_nil h
      | inr h => exact containsKey_not_nil h
    cases hTP : containsKey params "takeProfitPrice" with
    | true =>
      rw [createOrderSubmit_tp _ _ _ _ _ _ _ _ hne hTP]
      constructor
      · exact ⟨_, List.mem_append_right _ (List.mem_singleton_self _)⟩
      · intro p hp
        rcases List.mem_append.mp hp with hL | hR
        · exact NetEffect.noConfusion (load_markets_trace s _ hL)
        · rw [List.mem_singleton] at hR
          cases hR
          rfl
    | false =>
      have hSL : containsKey params "stopLossPrice" = true := by
        cases htp with
        | inl h => rw [h] at hTP; exact Bool.noConfusion hTP
        | inr h => exact h
      rw [createOrderSubmit_sl _ _ _ _ _ _ _ _ hne hTP hSL]
      constructor
      · exact ⟨_, List.mem_append_right _ (List.mem_singleton_self _)⟩
      · intro p hp
        rcases List.mem_append.mp hp with hL | hR
        · exact NetEffect.noConfusion (load_markets_trace s _ hL)
        · rw [List.mem_singleton] at hR
          cases hR
          rfl

/-- Witness for C2: a take-profit order requested with side "buy" is still
submitted with is_buy = false. -/
theorem create_order_trigger_fixed_side_witness :
    (∃ p, NetEffect.createTriggerOrderNet p
        ∈ (create_order ⟨some [[("symbol", JVal.str "BTC/RUSD:RUSD"), ("id", JVal.str "1")]], []⟩
            ⟨none, some (JVal.num (7, 1))⟩ "BTC/RUSD:RUSD" "market" "buy" (1, 1) none
            [("takeProfitPrice", JVal.num (100, 1))]).1) ∧
    (∀ p, NetEffect.createTriggerOrderNet p
        ∈ (create_order ⟨some [[("symbol", JVal.str "BTC/RUSD:RUSD"), ("id", JVal.str "1")]], []⟩
            ⟨none, some (JVal.num (7, 1))⟩ "BTC/RUSD:RUSD" "market" "buy" (1, 1) none
            [("takeProfitPrice", JVal.num (100, 1))]).1 →
        p.is_buy = false) :=
  create_order_trigger_fixed_side
    ⟨some [[("symbol", JVal.str "BTC/RUSD:RUSD"), ("id", JVal.str "1")]], []⟩
    ⟨none, some (JVal.num (7, 1))⟩ "BTC/RUSD:RUSD" "market" "buy" (1, 1) none
    [("takeProfitPrice", JVal.num (100, 1))]
    (by decide) (Or.inl (by decide)) ⟨JVal.str "1", 1, by decide, by decide⟩

/-- Counterexample for C4: with the markets not yet loaded and no account id
resolvable, create_order does fail with the configuration error, but a network
call (the market-list fetch issued by load_markets at Reya.py 893) has already
been attempted — the trace is not empty, contradicting the claim that no
network call is attempted. -/
theorem create_order_missing_account_counterexample :
    (create_order ⟨none, []⟩ ⟨none, none⟩ "BTC/RUSD:RUSD" "limit" "buy" (1, 1) none []).1
      = [NetEffect.fetchMarketsNet] ∧
    (create_order ⟨none, []⟩ ⟨none, none⟩ "BTC/RUSD:RUSD" "limit" "buy" (1, 1) none []).1
      ≠ [] ∧
    (create_order ⟨none, []⟩ ⟨none, none⟩ "BTC/RUSD:RUSD" "limit" "buy" (1, 1) none []).2
      = Except.error OrderErr.missingAccountId := by
  exact ⟨by decide, by decide, by decide⟩

/-- C4 as amended: when no trading-account identifier resolves from params or
the configured defaults, create_order fails with the configuration error
(RuntimeError, Reya.py 903-904) and submits no order — the only network call
that can precede the failure is the market-list load. -/
theorem create_order_missing_account_fail_fast (s : ExchState) (opts : ReyaOptions)
    (symbol otype side : String) (amount : QR) (price : Option QR) (params : Payload)
    (h : pyOr (lookupV params "accountId") opts.account_id = none) :
    (create_order s opts symbol otype side amount price params).2
      = Except.error OrderErr.missingAccountId ∧
    ∀ e ∈ (create_order s opts symbol otype side amount price params).1,
      e = NetEffect.fetchMarketsNet := by
  have hco : create_order s opts symbol otype side amount price params
      = ((load_markets s).1, Except.error OrderErr.missingAccountId) := by
    simp [create_order, h]
  rw [hco]
  exact ⟨rfl, fun e he => load_markets_trace s e he⟩

/-- Witness for C4 (amended) with empty params and no configured account. -/
theorem create_order_missing_account_fail_fast_witness :
    (create_order ⟨some [], []⟩ ⟨none, none⟩ "BTC/RUSD:RUSD" "limit" "buy" (1, 1) none []).2
      = Except.error OrderErr.missingAccountId ∧
    ∀ e ∈ (create_order ⟨some [], []⟩ ⟨none, none⟩ "BTC/RUSD:RUSD" "limit" "buy" (1, 1)
        none []).1, e = NetEffect.fetchMarketsNet :=
  create_order_missing_account_fail_fast ⟨some [], []⟩ ⟨none, none⟩
    "BTC/RUSD:RUSD" "limit" "buy" (1, 1) none [] (by decide)

/-- C5: on the balance payload with the single SRUSD entry of 1000 and one
open order of notional 100 (amount 1 at price 100) at leverage 5,
fetch_balance reports total = 900 (the 90 percent haircut on the staked
balance), used = 20 and free = 880, as rational values. -/
theorem fetch_balance_haircut_example :
    (fetch_balance [[("asset", JVal.str "SRUSD"), ("realBalance", JVal.str "1000")]]
        [⟨some "1", 0, "open", "BTC/RUSD:RUSD", "limit", "buy", some (JVal.num (100, 1)),
          JVal.num (1, 1), JVal.num (0, 1), (1, 1)⟩]
        [("BTC/RUSD:RUSD", 5)]).map
      (fun b => qEq b.total (900, 1) && qEq b.used (20, 1) && qEq b.free (880, 1))
      = Except.ok true := by decide

/-- C6: on the vendor market list with the single entry of symbol
"BTCRUSDPERP", marketId 1 and tickSize "0.01", fetch_markets yields one entry
with symbol "BTC/RUSD:RUSD", base "BTC", quote "RUSD" and amount precision 2
(derived from the tick size). -/
theorem fetch_markets_btc_example :
    (fetch_markets_out [[("symbol", JVal.str "BTCRUSDPERP"), ("marketId", JVal.num (1, 1)),
        ("tickSize", JVal.str "0.01")]]).map
      (fun l => l.map (fun r => (r.symbol, r.base, r.quote, r.precisionAmount)))
      = Except.ok [("BTC/RUSD:RUSD", "BTC", "RUSD", (2 : ℤ))] := by decide

theorem lookup_setAssoc_ne {α : Type} (l : List (String × α)) (k0 k : String) (v : α)
    (h : (k0 == k) = false) :
    lookupAssoc (setAssoc l k0 v) k = lookupAssoc l k := by
  induction l with
  | nil => simp [setAssoc, lookupAssoc, h]
  | cons p t ih =>
    obtain ⟨a, b⟩ := p
    cases hak : (a == k0) with
    | true =>
      have ha : a = k0 := by simpa using hak
      subst ha
      simp [setAssoc, lookupAssoc, h]
    | false =>
      simp [setAssoc, hak, lookupAssoc, ih]

theorem lookup_build_aux (r : List Payload) (k : String) :
    ∀ acc, lookupAssoc acc k = none → (∀ m ∈ r, (marketKey m == k) = false) →
    lookupAssoc (r.foldl (fun acc m => setAssoc acc (marketKey m) m) acc) k = none := by
  induction r with
  | nil =>
    intro acc hacc _
    simpa using hacc
  | cons m ms ih =>
    intro acc hacc hall
    simp only [List.foldl_cons]
    apply ih
    · rw [lookup_setAssoc_ne _ _ _ _ (hall m (by simp))]
      exact hacc
    · intro x hx
      exact hall x (by simp [hx])

/-- C8: the in-memory market index after a second fetch_markets call is built
solely from the second vendor response — starting from any prior index and any
first response, every key that no entry of the second response produces is
absent from the index afterwards (full replacement, never a merge). -/
theorem fetch_markets_full_replacement (s0 : List (String × Payload))
    (r1 r2 : List Payload) (k : String)
    (h : ∀ m ∈ r2, marketKey m ≠ k) :
    lookupAssoc (fetch_markets_index (fetch_markets_index s0 r1) r2) k = none := by
  unfold fetch_markets_index buildMarketsIndex
  apply lookup_build_aux
  · rfl
  · intro m hm
    simpa using h m hm

/-- Witness for C8: the key "5" of the first response disappears after a
second response whose only entry has marketId 7. -/
theorem fetch_markets_full_replacement_witness :
    lookupAssoc (fetch_markets_index
        (fetch_markets_index [] [[("marketId", JVal.num (5, 1))]])
        [[("marketId", JVal.num (7, 1))]]) "5" = none :=
  fetch_markets_full_replacement [] [[("marketId", JVal.num (5, 1))]]
    [[("marketId", JVal.num (7, 1))]] "5" (by decide)

end ReyaCcxt
